import Mathlib

/-!
Shallow embedding of the 2D computational-geometry kernel of the
canvas-editor starter kit (source file `src/types.d.ts`).

Coordinates are embedded as elements of an arbitrary linear ordered field
(instantiated at `ℚ` for concrete evaluation and at `ℝ` where the source
uses trigonometric functions).  The source works on IEEE-754 doubles; the
embedding uses exact arithmetic, which agrees with the source on the small
rational inputs all concrete statements use.

The source stores Euclidean lengths (square roots); the embedding tracks
the *square* of each such quantity (`distSq`, `Circle.radiusSq`), since
square roots are irrational.  All comparisons of the source that involve
lengths are reformulated on squares where they appear.

Mutating methods of the source are embedded as pure functions from the
receiver value to the updated value; where a claim is about the receiver
being left unchanged on an exception, the method body is embedded
statement by statement (`Point.divideRun`) so that the receiver state at
the throw point is explicit.

Reference aliasing (claim about ownership of embedded points) is modelled
by a small heap: a store of point values addressed by allocation index;
`clone()` allocates a fresh cell, and constructors either copy (Polygon)
or alias (Circle, Line) exactly as the source does.
-/

set_option maxRecDepth 8000

namespace CanvasGeo

/-- The default comparison tolerance of the source, `1e-10`. -/
def eps (α : Type) [LinearOrderedField α] : α := 1 / 10 ^ 10

/-- Source class `Point`: fields `x`, `y`. -/
structure Point (α : Type) where
  x : α
  y : α
deriving DecidableEq

variable {α : Type} [LinearOrderedField α]

/-- `Point.equals(point, tolerance = 1e-10)`: componentwise absolute comparison. -/
def Point.equals (p q : Point α) (tol : α) : Bool :=
  decide (|p.x - q.x| < tol) && decide (|p.y - q.y| < tol)

/-- Square of `Point.distance(p1, p2)`; the source returns `Math.sqrt` of this sum. -/
def distSq (p q : Point α) : α :=
  (q.x - p.x) * (q.x - p.x) + (q.y - p.y) * (q.y - p.y)

/-- Instance method `Point.divide(scalar)`, embedded statement by statement.
The first component is the receiver's state after the call (the `throw`
happens before either field assignment, so on error the receiver keeps its
pre-call state); the second is `none` for the thrown `Division by zero`
error and `some` of the returned (mutated) receiver otherwise. -/
def Point.divideRun (p : Point α) (s : α) : Point α × Option (Point α) :=
  if s = 0 then (p, none)
  else
    let p1 : Point α := ⟨p.x / s, p.y⟩
    let p2 : Point α := ⟨p1.x, p1.y / s⟩
    (p2, some p2)

/-- Static `Point.divide(point, scalar)`: pure variant, `none` models the throw. -/
def Point.divideStatic (p : Point α) (s : α) : Option (Point α) :=
  if s = 0 then none else some ⟨p.x / s, p.y / s⟩

/-- Source class `Rectangle`: top-left corner plus width and height. -/
structure Rectangle (α : Type) where
  x : α
  y : α
  width : α
  height : α
deriving DecidableEq

/-- Accessor `Rectangle.right`. -/
def Rectangle.right (r : Rectangle α) : α := r.x + r.width

/-- Accessor `Rectangle.bottom`. -/
def Rectangle.bottom (r : Rectangle α) : α := r.y + r.height

/-- The `Point` branch of `Rectangle.contains` (boundary inclusive). -/
def Rectangle.containsPt (r : Rectangle α) (p : Point α) : Bool :=
  decide (p.x ≥ r.x) && decide (p.x ≤ r.right) &&
    decide (p.y ≥ r.y) && decide (p.y ≤ r.bottom)

/-- `Rectangle.intersects(rect)` (source lines 707-714). -/
def Rectangle.intersects (a b : Rectangle α) : Bool :=
  !(decide (b.x > a.right) || decide (b.right < a.x) ||
    decide (b.y > a.bottom) || decide (b.bottom < a.y))

/-- `Rectangle.intersection(rect)` (source lines 722-731). -/
def Rectangle.intersection (a b : Rectangle α) : Option (Rectangle α) :=
  if a.intersects b = false then none
  else
    let x := max a.x b.x
    let y := max a.y b.y
    let r := min a.right b.right
    let bo := min a.bottom b.bottom
    some ⟨x, y, r - x, bo - y⟩

/-- Source class `Circle`.  The source stores `radius`; the embedding stores
its square `radiusSq` (the source radius is `√radiusSq`), since the radius
produced by `fromThreePoints` is a Euclidean distance. -/
structure Circle (α : Type) where
  center : Point α
  radiusSq : α
deriving DecidableEq

/-- `Circle.fromThreePoints(p1, p2, p3)` (source lines 1029-1054).  The
returned circle's `radiusSq` is the square of the source's
`radius = center.distanceTo(p1)`. -/
def Circle.fromThreePoints (p1 p2 p3 : Point α) : Option (Circle α) :=
  let D := 2 * (p1.x * (p2.y - p3.y) + p2.x * (p3.y - p1.y) + p3.x * (p1.y - p2.y))
  if |D| < eps α then none
  else
    let p1Sq := p1.x * p1.x + p1.y * p1.y
    let p2Sq := p2.x * p2.x + p2.y * p2.y
    let p3Sq := p3.x * p3.x + p3.y * p3.y
    let cx := (p1Sq * (p2.y - p3.y) + p2Sq * (p3.y - p1.y) + p3Sq * (p1.y - p2.y)) / D
    let cy := (p1Sq * (p3.x - p2.x) + p2Sq * (p1.x - p3.x) + p3Sq * (p2.x - p1.x)) / D
    let c : Point α := ⟨cx, cy⟩
    some ⟨c, distSq c p1⟩

/-- Source class `Line`; the source field `end` is a reserved word in Lean,
so it is called `endPt` here. -/
structure Line (α : Type) where
  start : Point α
  endPt : Point α
deriving DecidableEq

/-- The `denominator` local of `Line.intersects` (Cramer determinant). -/
def Line.denomOf (l1 l2 : Line α) : α :=
  let s1x := l1.endPt.x - l1.start.x
  let s1y := l1.endPt.y - l1.start.y
  let s2x := l2.endPt.x - l2.start.x
  let s2y := l2.endPt.y - l2.start.y
  let denom := -s2x * s1y + s1x * s2y
  denom

/-- The `s` local of `Line.intersects` (parameter along `l2`). -/
def Line.paramS (l1 l2 : Line α) : α :=
  let s1x := l1.endPt.x - l1.start.x
  let s1y := l1.endPt.y - l1.start.y
  (-s1y * (l1.start.x - l2.start.x) + s1x * (l1.start.y - l2.start.y)) / Line.denomOf l1 l2

/-- The `t` local of `Line.intersects` (parameter along `l1`). -/
def Line.paramT (l1 l2 : Line α) : α :=
  let s2x := l2.endPt.x - l2.start.x
  let s2y := l2.endPt.y - l2.start.y
  (s2x * (l1.start.y - l2.start.y) - s2y * (l1.start.x - l2.start.x)) / Line.denomOf l1 l2

/-- `Line.intersects(line)` (source lines 1213-1241). -/
def Line.intersects (l1 l2 : Line α) : Option (Point α) :=
  let denom := Line.denomOf l1 l2
  if |denom| < eps α then none
  else
    let s := Line.paramS l1 l2
    let t := Line.paramT l1 l2
    if 0 ≤ s ∧ s ≤ 1 ∧ 0 ≤ t ∧ t ≤ 1 then
      some ⟨l1.start.x + t * (l1.endPt.x - l1.start.x),
            l1.start.y + t * (l1.endPt.y - l1.start.y)⟩
    else none

/-- Sum of `f` over adjacent pairs of a list. -/
def pairSum (f : Point α → Point α → α) : List (Point α) → α
  | a :: b :: t => f a b + pairSum f (b :: t)
  | _ => 0

/-- Sum of `f` over the vertex cycle `v0, v1, …, v(n-1), v0`; this is the
accumulation pattern of the source loops `j = (i + 1) % n`. -/
def cycSum (f : Point α → Point α → α) (vs : List (Point α)) : α :=
  pairSum f (vs ++ vs.take 1)

/-- The shoelace term `v[i].x * v[j].y - v[j].x * v[i].y` of `Polygon.area`. -/
def shoeTerm (a b : Point α) : α := a.x * b.y - b.x * a.y

/-- A polygon is its ordered vertex list. -/
abbrev Poly (α : Type) := List (Point α)

/-- `Polygon.area()` (source lines 1514-1527). -/
def Polygon.area (vs : Poly α) : α :=
  if vs.length < 3 then 0
  else |cycSum shoeTerm vs| / 2

/-- Arithmetic mean of the vertices (the two fallback branches of
`Polygon.centroid` both compute exactly this quotient). -/
def Polygon.mean (vs : Poly α) : Point α :=
  ⟨(vs.map Point.x).sum / (vs.length : α), (vs.map Point.y).sum / (vs.length : α)⟩

/-- `Polygon.centroid()` (source lines 1560-1603).  The `< 3` branch and the
near-zero signed-area fallback both compute the arithmetic mean of the
vertices (the fallback's `Point.divide` cannot throw there since the vertex
count is at least 3). -/
def Polygon.centroid (vs : Poly α) : Point α :=
  if vs.length = 0 then ⟨0, 0⟩
  else if vs.length < 3 then Polygon.mean vs
  else
    let S := cycSum shoeTerm vs
    let cxs := cycSum (fun a b => (a.x + b.x) * shoeTerm a b) vs
    let cys := cycSum (fun a b => (a.y + b.y) * shoeTerm a b) vs
    if |S| < eps α then Polygon.mean vs
    else ⟨cxs / (6 * (S / 2)), cys / (6 * (S / 2))⟩

/-- `Polygon.isClosed()` (vertex count > 2 and first ≈ last at default tolerance). -/
def Polygon.isClosed (vs : Poly α) : Bool :=
  decide (vs.length > 2) &&
    Point.equals (vs.getD 0 ⟨0, 0⟩) (vs.getD (vs.length - 1) ⟨0, 0⟩) (eps α)

/-- `Polygon.close()` (append a copy of the first vertex when open and long enough). -/
def Polygon.close (vs : Poly α) : Poly α :=
  if vs.length > 2 ∧ Polygon.isClosed vs = false then vs ++ [vs.getD 0 ⟨0, 0⟩] else vs

/-- `Polygon.getEdges()` (source lines 1675-1693).  The `&& n > 1` of the
source's `limit` is redundant (`isClosed` already requires `n > 2`). -/
def Polygon.getEdges (vs : Poly α) : List (Line α) :=
  if vs.length < 2 then []
  else
    let n := vs.length
    let limit := if Polygon.isClosed vs then n - 1 else n
    (List.range limit).map fun i => ⟨vs.getD i ⟨0, 0⟩, vs.getD ((i + 1) % n) ⟨0, 0⟩⟩

/-- `Polygon.contains(point)`: even-odd ray casting (source lines 1636-1657);
the loop pairs index `i` with the previous index `j = i - 1 mod n`. -/
def Polygon.containsPt (vs : Poly α) (p : Point α) : Bool :=
  if vs.length < 3 then false
  else
    let n := vs.length
    (List.range n).foldl
      (fun inside i =>
        let vi := vs.getD i ⟨0, 0⟩
        let vj := vs.getD ((i + (n - 1)) % n) ⟨0, 0⟩
        if (decide (vi.y > p.y) != decide (vj.y > p.y)) &&
            decide (p.x < (vj.x - vi.x) * (p.y - vi.y) / (vj.y - vi.y) + vi.x)
        then !inside else inside)
      false

/-- `Polygon.intersects(polygon)` (source lines 1703-1734): any edge pair
intersecting, or either polygon containing the other's *first* vertex.
(The source's extra `length > 0 &&` guards are subsumed by the first test.) -/
def Polygon.intersects (p q : Poly α) : Bool :=
  if p.length = 0 ∨ q.length = 0 then false
  else
    let edges1 := Polygon.getEdges p
    let edges2 := Polygon.getEdges q
    (edges1.any fun e1 => edges2.any fun e2 => (Line.intersects e1 e2).isSome) ||
      Polygon.containsPt q (p.getD 0 ⟨0, 0⟩) || Polygon.containsPt p (q.getD 0 ⟨0, 0⟩)

/-- `Polygon.getVertex(index)` (source lines 1799-1802); the returned point
is a clone, which at the value level is the vertex itself. -/
def Polygon.getVertex (vs : Poly α) (i : ℤ) : Option (Point α) :=
  if i < 0 ∨ (vs.length : ℤ) ≤ i then none
  else some (vs.getD i.toNat ⟨0, 0⟩)

/-- `Polygon.removeVertex(index)` (source lines 1376-1381). -/
def Polygon.removeVertex (vs : Poly α) (i : ℤ) : Poly α :=
  if 0 ≤ i ∧ i < (vs.length : ℤ) then vs.eraseIdx i.toNat else vs

/-- `Polygon.setVertex(index, point)` (source lines 1811-1816). -/
def Polygon.setVertex (vs : Poly α) (i : ℤ) (p : Point α) : Poly α :=
  if 0 ≤ i ∧ i < (vs.length : ℤ) then vs.set i.toNat p else vs

/-- The comparator of `Polygon.convexHull`'s sort: by `x`, ties by `y`. -/
def lexLe (a b : Point α) : Bool :=
  decide (a.x < b.x) || (decide (a.x = b.x) && decide (a.y ≤ b.y))

/-- Ordered insertion for the stable sort below. -/
def insertLex (p : Point α) : Poly α → Poly α
  | [] => [p]
  | q :: t => if lexLe p q then p :: q :: t else q :: insertLex p t

/-- Stable sort by the source comparator (ES2019 `Array.sort` is stable;
ties are identical points, so stability does not affect the value). -/
def sortLex : Poly α → Poly α
  | [] => []
  | p :: t => insertLex p (sortLex t)

/-- The `crossProduct(o, a, b)` helper of `Polygon.convexHull`. -/
def crossOAB (o a b : Point α) : α :=
  (a.x - o.x) * (b.y - o.y) - (a.y - o.y) * (b.x - o.x)

/-- The inner `while` pop loop of a hull chain; the chain is kept reversed
(most recently pushed point first), so `a` is `hull[len-1]` and `b` is
`hull[len-2]`. -/
def popWhile (p : Point α) : Poly α → Poly α
  | a :: b :: t => if crossOAB b a p ≤ 0 then popWhile p (b :: t) else a :: b :: t
  | l => l

/-- One chain of the monotone-chain construction, in push order. -/
def buildChain (pts : Poly α) : Poly α :=
  (pts.foldl (fun hull p => p :: popWhile p hull) []).reverse

/-- `Polygon.convexHull(points)` (source lines 1965-2025): sort
lexicographically, build the two chains, drop the last point of each and
concatenate. -/
def Polygon.convexHull (pts : Poly α) : Poly α :=
  if pts.length < 3 then pts
  else
    let sorted := sortLex pts
    let lower := buildChain sorted
    let upper := buildChain sorted.reverse
    lower.dropLast ++ upper.dropLast

/-- `Polygon.regular(center, radius, sides)` (source lines 1867-1883).  The
transcendental functions `Math.cos`, `Math.sin` and the constant `Math.PI`
are parameters of the embedding (instantiated with `Real.cos`, `Real.sin`,
`Real.pi` in the statements); `none` models the thrown construction error
for `sides < 3`. -/
def Polygon.regular (cosf sinf : α → α) (piv : α)
    (center : Point α) (radius : α) (sides : ℕ) : Option (Poly α) :=
  if sides < 3 then none
  else
    let angleStep := 2 * piv / (sides : α)
    some (Polygon.close ((List.range sides).map fun (i : ℕ) =>
      ⟨center.x + radius * cosf ((i : α) * angleStep),
       center.y + radius * sinf ((i : α) * angleStep)⟩))

/-- C10: for an index outside `[0, vertexCount)`, `getVertex` returns null and
`removeVertex` / `setVertex` leave the vertex list completely unchanged. -/
theorem c10_out_of_range_vertex_ops (vs : Poly ℚ) (i : ℤ) (p : Point ℚ)
    (h : i < 0 ∨ (vs.length : ℤ) ≤ i) :
    Polygon.getVertex vs i = none ∧ Polygon.removeVertex vs i = vs ∧
      Polygon.setVertex vs i p = vs := by
  refine ⟨by rw [Polygon.getVertex, if_pos h],
    by rw [Polygon.removeVertex, if_neg (by omega)],
    by rw [Polygon.setVertex, if_neg (by omega)]⟩

/-- Witness for C10 at the one-vertex polygon and index 5. -/
theorem c10_witness :
    Polygon.getVertex (α := ℚ) [⟨1, 2⟩] 5 = none ∧
      Polygon.removeVertex (α := ℚ) [⟨1, 2⟩] 5 = [⟨1, 2⟩] ∧
      Polygon.setVertex (α := ℚ) [⟨1, 2⟩] 5 ⟨3, 4⟩ = [⟨1, 2⟩] :=
  c10_out_of_range_vertex_ops [⟨1, 2⟩] 5 ⟨3, 4⟩ (Or.inr (by norm_num))

/-- C6: both `Point.divide` forms fail exactly on a zero scalar (no silent
Infinity/NaN result), otherwise produce `(x/s, y/s)`; on failure the
receiver of the instance method keeps its pre-call state. -/
theorem c6_divide_by_zero (p : Point ℚ) (s : ℚ) :
    ((Point.divideRun p s).2 = none ↔ s = 0) ∧
      (s = 0 → (Point.divideRun p s).1 = p) ∧
      (s ≠ 0 → Point.divideRun p s = (⟨p.x / s, p.y / s⟩, some ⟨p.x / s, p.y / s⟩)) ∧
      (Point.divideStatic p s = none ↔ s = 0) ∧
      (s ≠ 0 → Point.divideStatic p s = some ⟨p.x / s, p.y / s⟩) := by
  by_cases h : s = 0 <;>
    simp [Point.divideRun, Point.divideStatic, h]

/-- Witness for C6 at `(6, 4)` with scalars 0 and 2. -/
theorem c6_witness :
    (Point.divideRun (α := ℚ) ⟨6, 4⟩ 0).1 = ⟨6, 4⟩ ∧
      Point.divideRun (α := ℚ) ⟨6, 4⟩ 2 = (⟨3, 2⟩, some ⟨3, 2⟩) ∧
      Point.divideStatic (α := ℚ) ⟨6, 4⟩ 2 = some ⟨3, 2⟩ := by
  refine ⟨(c6_divide_by_zero ⟨6, 4⟩ 0).2.1 rfl, ?_, ?_⟩
  · rw [(c6_divide_by_zero (⟨6, 4⟩ : Point ℚ) 2).2.2.1 (by norm_num)]
    norm_num
  · rw [(c6_divide_by_zero (⟨6, 4⟩ : Point ℚ) 2).2.2.2.2 (by norm_num)]
    norm_num

/-- C5: for normalized rectangles, `intersects` is true exactly when the two
are not strictly separated along an axis (touching counts, equivalently a
common point exists), and `intersection` is `none` exactly when `intersects`
is false, otherwise the max/min overlap rectangle. -/
theorem c5_rectangle_intersection (A B : Rectangle ℚ)
    (hA1 : 0 ≤ A.width) (hA2 : 0 ≤ A.height) (hB1 : 0 ≤ B.width) (hB2 : 0 ≤ B.height) :
    (A.intersects B = true ↔
      ¬(A.right < B.x ∨ B.right < A.x ∨ A.bottom < B.y ∨ B.bottom < A.y)) ∧
      (A.intersects B = true ↔
        ∃ p : Point ℚ, A.containsPt p = true ∧ B.containsPt p = true) ∧
      (A.intersection B = none ↔ A.intersects B = false) ∧
      (∀ r, A.intersection B = some r →
        r = ⟨max A.x B.x, max A.y B.y, min A.right B.right - max A.x B.x,
             min A.bottom B.bottom - max A.y B.y⟩) := by
  have hsep : A.intersects B = true ↔
      ¬(A.right < B.x ∨ B.right < A.x ∨ A.bottom < B.y ∨ B.bottom < A.y) := by
    simp only [Rectangle.intersects, Bool.not_eq_true', Bool.or_eq_false_iff,
      decide_eq_false_iff_not, gt_iff_lt, not_lt]
    push_neg
    constructor
    · rintro ⟨⟨⟨h1, h2⟩, h3⟩, h4⟩
      exact ⟨h1, h2, h3, h4⟩
    · rintro ⟨h1, h2, h3, h4⟩
      exact ⟨⟨⟨h1, h2⟩, h3⟩, h4⟩
  refine ⟨hsep, ?_, ?_, ?_⟩
  · rw [hsep]
    constructor
    · intro h
      push_neg at h
      refine ⟨⟨max A.x B.x, max A.y B.y⟩, ?_, ?_⟩ <;>
        · simp only [Rectangle.containsPt, Bool.and_eq_true, decide_eq_true_eq, ge_iff_le]
          refine ⟨⟨⟨?_, ?_⟩, ?_⟩, ?_⟩ <;>
            simp only [le_max_iff, max_le_iff, le_refl, true_or, or_true, true_and] <;>
            first
              | exact ⟨le_add_of_nonneg_right (by assumption), h.1⟩
              | exact ⟨h.2.1, le_add_of_nonneg_right (by assumption)⟩
              | exact ⟨le_add_of_nonneg_right (by assumption), h.2.2.1⟩
              | exact ⟨h.2.2.2, le_add_of_nonneg_right (by assumption)⟩
    · rintro ⟨p, hpA, hpB⟩
      simp only [Rectangle.containsPt, Bool.and_eq_true, decide_eq_true_eq, ge_iff_le] at hpA hpB
      push_neg
      exact ⟨by linarith [hpA.1.1.2, hpB.1.1.1], by linarith [hpB.1.1.2, hpA.1.1.1],
        by linarith [hpA.1.2, hpB.2], by linarith [hpB.1.2, hpA.2]⟩
  · rw [Rectangle.intersection]
    cases hI : A.intersects B <;> simp [hI]
  · intro r hr
    rw [Rectangle.intersection] at hr
    cases hI : A.intersects B
    · rw [hI] at hr; simp at hr
    · rw [hI] at hr
      simp only [Bool.true_eq_false, if_false] at hr
      exact (Option.some.inj hr).symm

/-- Witness for C5 at the unit squares touching along the edge `x = 1`. -/
theorem c5_witness :
    (Rectangle.intersects (α := ℚ) ⟨0, 0, 1, 1⟩ ⟨1, 0, 1, 1⟩ = true ↔
      ∃ p : Point ℚ, Rectangle.containsPt ⟨0, 0, 1, 1⟩ p = true ∧
        Rectangle.containsPt ⟨1, 0, 1, 1⟩ p = true) ∧
      (∀ r, Rectangle.intersection (α := ℚ) ⟨0, 0, 1, 1⟩ ⟨1, 0, 1, 1⟩ = some r →
        r = ⟨max 0 1, max 0 0, min (0 + 1) (1 + 1) - max 0 1, min (0 + 1) (0 + 1) - max 0 0⟩) :=
  ⟨(c5_rectangle_intersection ⟨0, 0, 1, 1⟩ ⟨1, 0, 1, 1⟩ (by norm_num) (by norm_num)
      (by norm_num) (by norm_num)).2.1,
    by
      have h := (c5_rectangle_intersection (⟨0, 0, 1, 1⟩ : Rectangle ℚ) ⟨1, 0, 1, 1⟩
        (by norm_num) (by norm_num) (by norm_num) (by norm_num)).2.2.2
      intro r hr
      simpa [Rectangle.right, Rectangle.bottom] using h r hr⟩

/-- C2: `Circle.fromThreePoints` returns absence exactly when `|D| < 1e-10`
(`D` the collinearity determinant); otherwise it returns the circumcircle:
the computed center is equidistant from the three input points (stated on
squared distances) and the squared radius is the squared distance from the
center to `p1`.  The spec's two concrete examples close the statement: the
right triangle gives center (2,2) with squared radius 8, so the radius √8
lies strictly between 2.828 and 2.829, and collinear input gives absence. -/
theorem c2_circle_from_three_points (p1 p2 p3 : Point ℚ) :
    (Circle.fromThreePoints p1 p2 p3 = none ↔
      |2 * (p1.x * (p2.y - p3.y) + p2.x * (p3.y - p1.y) + p3.x * (p1.y - p2.y))| < eps ℚ) ∧
      (∀ c, Circle.fromThreePoints p1 p2 p3 = some c →
        distSq c.center p1 = distSq c.center p2 ∧
          distSq c.center p1 = distSq c.center p3 ∧
          c.radiusSq = distSq c.center p1) ∧
      Circle.fromThreePoints (⟨0, 0⟩ : Point ℚ) ⟨4, 0⟩ ⟨0, 4⟩ = some ⟨⟨2, 2⟩, 8⟩ ∧
      ((2828 : ℚ) / 1000) ^ 2 < 8 ∧ (8 : ℚ) < ((2829 : ℚ) / 1000) ^ 2 ∧
      Circle.fromThreePoints (⟨0, 0⟩ : Point ℚ) ⟨1, 0⟩ ⟨2, 0⟩ = none := by
  refine ⟨?_, ?_, ?_, by norm_num, by norm_num, ?_⟩
  · simp only [Circle.fromThreePoints]
    by_cases hD : |2 * (p1.x * (p2.y - p3.y) + p2.x * (p3.y - p1.y) + p3.x * (p1.y - p2.y))| <
        eps ℚ
    · simp [hD]
    · simp [hD]
  · intro c hc
    simp only [Circle.fromThreePoints] at hc
    by_cases hD : |2 * (p1.x * (p2.y - p3.y) + p2.x * (p3.y - p1.y) + p3.x * (p1.y - p2.y))| <
        eps ℚ
    · rw [if_pos hD] at hc
      exact absurd hc (by simp)
    · rw [if_neg hD] at hc
      have hD0 : 2 * (p1.x * (p2.y - p3.y) + p2.x * (p3.y - p1.y) + p3.x * (p1.y - p2.y)) ≠ 0 := by
        intro h0
        rw [h0] at hD
        exact hD (by norm_num [eps])
      obtain rfl := (Option.some.inj hc).symm
      refine ⟨?_, ?_, rfl⟩ <;>
        · simp only [distSq]
          field_simp
          ring
  · norm_num [Circle.fromThreePoints, eps, distSq]
  · norm_num [Circle.fromThreePoints, eps]

/-- Witness for C2: the equidistance consequence extracted at the spec's
right-triangle example, and the two branch examples themselves. -/
theorem c2_witness :
    distSq (⟨2, 2⟩ : Point ℚ) ⟨0, 0⟩ = distSq (⟨2, 2⟩ : Point ℚ) ⟨4, 0⟩ ∧
      distSq (⟨2, 2⟩ : Point ℚ) ⟨0, 0⟩ = distSq (⟨2, 2⟩ : Point ℚ) ⟨0, 4⟩ ∧
      (8 : ℚ) = distSq (⟨2, 2⟩ : Point ℚ) ⟨0, 0⟩ := by
  have h := (c2_circle_from_three_points ⟨0, 0⟩ ⟨4, 0⟩ ⟨0, 4⟩).2.1 ⟨⟨2, 2⟩, 8⟩
    (c2_circle_from_three_points ⟨0, 0⟩ ⟨4, 0⟩ ⟨0, 4⟩).2.2.1
  exact h

/-- C1: `Line.intersects` returns absence whenever the Cramer determinant has
magnitude below 1e-10 (parallel and collinear segments included); otherwise
it returns the point `A.start + t·(A.end − A.start)` exactly when both
solved parameters `s`, `t` lie in `[0, 1]`, and that point also equals
`B.start + s·(B.end − B.start)` (it lies on both segments), with the spec's
concrete example `(0,0)-(10,0) × (5,-5)-(5,5) = (5,0)` as final conjunct. -/
theorem c1_line_segment_intersection (A B : Line ℚ) :
    (|Line.denomOf A B| < eps ℚ → Line.intersects A B = none) ∧
      (eps ℚ ≤ |Line.denomOf A B| →
        (Line.intersects A B =
            if 0 ≤ Line.paramS A B ∧ Line.paramS A B ≤ 1 ∧
                0 ≤ Line.paramT A B ∧ Line.paramT A B ≤ 1 then
              some ⟨A.start.x + Line.paramT A B * (A.endPt.x - A.start.x),
                    A.start.y + Line.paramT A B * (A.endPt.y - A.start.y)⟩
            else none) ∧
          ∀ p, Line.intersects A B = some p →
            p.x = B.start.x + Line.paramS A B * (B.endPt.x - B.start.x) ∧
              p.y = B.start.y + Line.paramS A B * (B.endPt.y - B.start.y)) ∧
      Line.intersects (⟨⟨0, 0⟩, ⟨10, 0⟩⟩ : Line ℚ) ⟨⟨5, -5⟩, ⟨5, 5⟩⟩ = some ⟨5, 0⟩ := by
  refine ⟨?_, ?_, ?_⟩
  · intro h
    simp only [Line.intersects]
    rw [if_pos h]
  · intro h
    have hD0 : Line.denomOf A B ≠ 0 := by
      intro h0
      rw [h0] at h
      norm_num [eps] at h
    constructor
    · simp only [Line.intersects]
      rw [if_neg (not_lt.mpr h)]
    · intro p hp
      simp only [Line.intersects] at hp
      rw [if_neg (not_lt.mpr h)] at hp
      by_cases hrange : 0 ≤ Line.paramS A B ∧ Line.paramS A B ≤ 1 ∧
          0 ≤ Line.paramT A B ∧ Line.paramT A B ≤ 1
      · rw [if_pos hrange] at hp
        obtain rfl := (Option.some.inj hp).symm
        constructor <;>
          · simp only [Line.paramS, Line.paramT]
            field_simp
            simp only [Line.denomOf]
            ring
      · rw [if_neg hrange] at hp
        exact absurd hp (by simp)
  · norm_num [Line.intersects, Line.denomOf, Line.paramS, Line.paramT, eps]

/-- Witness for C1: the parallel horizontal pair yields absence, and the
spec's crossing example yields the point (5,0) through the parameter branch. -/
theorem c1_witness :
    Line.intersects (⟨⟨0, 0⟩, ⟨1, 0⟩⟩ : Line ℚ) ⟨⟨0, 1⟩, ⟨1, 1⟩⟩ = none ∧
      Line.intersects (⟨⟨0, 0⟩, ⟨10, 0⟩⟩ : Line ℚ) ⟨⟨5, -5⟩, ⟨5, 5⟩⟩ = some ⟨5, 0⟩ := by
  refine ⟨(c1_line_segment_intersection ⟨⟨0, 0⟩, ⟨1, 0⟩⟩ ⟨⟨0, 1⟩, ⟨1, 1⟩⟩).1
    (by norm_num [Line.denomOf, eps]), ?_⟩
  have h := ((c1_line_segment_intersection ⟨⟨0, 0⟩, ⟨10, 0⟩⟩ ⟨⟨5, -5⟩, ⟨5, 5⟩⟩).2.1
    (by norm_num [Line.denomOf, eps])).1
  rw [h]
  norm_num [Line.paramS, Line.paramT, Line.denomOf]

/-- C8: `Polygon.centroid` returns the arithmetic mean of the vertices for
fewer than 3 vertices and when the shoelace signed sum has magnitude below
1e-10; otherwise the signed-area-weighted centroid, each sum divided by
6 times the signed area (half the shoelace sum). -/
theorem c8_centroid_fallback (vs : Poly ℚ) :
    (vs.length < 3 → Polygon.centroid vs = Polygon.mean vs) ∧
      (3 ≤ vs.length → |cycSum shoeTerm vs| < eps ℚ →
        Polygon.centroid vs = Polygon.mean vs) ∧
      (3 ≤ vs.length → eps ℚ ≤ |cycSum shoeTerm vs| →
        Polygon.centroid vs =
          ⟨cycSum (fun a b => (a.x + b.x) * shoeTerm a b) vs / (6 * (cycSum shoeTerm vs / 2)),
           cycSum (fun a b => (a.y + b.y) * shoeTerm a b) vs / (6 * (cycSum shoeTerm vs / 2))⟩) := by
  refine ⟨?_, ?_, ?_⟩
  · intro h
    rw [Polygon.centroid]
    by_cases h0 : vs.length = 0
    · rw [if_pos h0]
      obtain rfl := List.length_eq_zero.mp h0
      simp [Polygon.mean]
    · rw [if_neg h0, if_pos h]
  · intro h3 hS
    simp only [Polygon.centroid]
    rw [if_neg (by omega), if_neg (by omega), if_pos hS]
  · intro h3 hS
    simp only [Polygon.centroid]
    rw [if_neg (by omega), if_neg (by omega), if_neg (not_lt.mpr hS)]

/-- Witness for C8: a two-vertex polygon and a collinear triple take the mean
(midpoint (1,0)), the unit square takes the weighted centroid (1/2, 1/2). -/
theorem c8_witness :
    Polygon.centroid (α := ℚ) [⟨0, 0⟩, ⟨2, 0⟩] = ⟨1, 0⟩ ∧
      Polygon.centroid (α := ℚ) [⟨0, 0⟩, ⟨1, 0⟩, ⟨2, 0⟩] = ⟨1, 0⟩ ∧
      Polygon.centroid (α := ℚ) [⟨0, 0⟩, ⟨1, 0⟩, ⟨1, 1⟩, ⟨0, 1⟩] = ⟨1/2, 1/2⟩ := by
  refine ⟨?_, ?_, ?_⟩
  · rw [(c8_centroid_fallback _).1 (by norm_num)]
    norm_num [Polygon.mean]
  · rw [(c8_centroid_fallback _).2.1 (by norm_num)
      (by norm_num [cycSum, pairSum, shoeTerm, eps])]
    norm_num [Polygon.mean]
  · rw [(c8_centroid_fallback _).2.2 (by norm_num)
      (by norm_num [cycSum, pairSum, shoeTerm, eps])]
    norm_num [cycSum, pairSum, shoeTerm]

variable {α : Type} [LinearOrderedField α]

lemma pairSum_snoc (f : Point α → Point α → α) (l : List (Point α)) (a : Point α) :
    pairSum f (l ++ [a]) = pairSum f l + (l.getLast?).elim 0 (fun b => f b a) := by
  induction l with
  | nil => simp [pairSum]
  | cons x xs ih =>
    cases xs with
    | nil => simp [pairSum]
    | cons y ys =>
      simp only [List.cons_append, List.append_eq, pairSum, List.getLast?_cons_cons] at ih ⊢
      rw [ih, add_assoc]

lemma pairSum_reverse (f : Point α → Point α → α) (hf : ∀ p q, f q p = -f p q)
    (l : List (Point α)) : pairSum f l.reverse = -pairSum f l := by
  induction l with
  | nil => simp [pairSum]
  | cons x xs ih =>
    rw [List.reverse_cons, pairSum_snoc, ih]
    cases xs with
    | nil => simp [pairSum]
    | cons y ys =>
      rw [List.getLast?_reverse]
      simp only [List.head?_cons, Option.elim, pairSum, hf y x]
      ring

lemma cycSum_reverse (f : Point α → Point α → α) (hf : ∀ p q, f q p = -f p q)
    (l : List (Point α)) : cycSum f l.reverse = -cycSum f l := by
  cases l with
  | nil => simp [cycSum, pairSum]
  | cons v t =>
    obtain ⟨w, ws, hw⟩ := List.exists_cons_of_ne_nil (l := (v :: t).reverse) (by simp)
    have hw2 : (v :: t).getLast? = some w := by
      rw [← List.head?_reverse, hw, List.head?_cons]
    calc cycSum f (v :: t).reverse
        = pairSum f ((v :: t).reverse ++ [w]) := by
          rw [cycSum, hw]
          rfl
      _ = pairSum f ((w :: v :: t).reverse) := by simp
      _ = -pairSum f (w :: v :: t) := pairSum_reverse f hf _
      _ = -(pairSum f (v :: t) + ((v :: t).getLast?).elim 0 (fun b => f b v)) := by
          rw [hw2]
          simp only [pairSum, Option.elim]
          ring
      _ = -pairSum f ((v :: t) ++ [v]) := by rw [pairSum_snoc]
      _ = -cycSum f (v :: t) := by rw [cycSum]; rfl

lemma shoeTerm_antisymm (p q : Point α) : shoeTerm q p = -shoeTerm p q := by
  simp only [shoeTerm]
  ring

lemma regular_square_vertices :
    Polygon.regular Real.cos Real.sin Real.pi ⟨0, 0⟩ 1 4 =
      some [⟨1, 0⟩, ⟨0, 1⟩, ⟨-1, 0⟩, ⟨0, -1⟩, ⟨1, 0⟩] := by
  have hc3 : Real.cos (Real.pi + Real.pi / 2) = 0 := by
    rw [Real.cos_add, Real.cos_pi, Real.sin_pi, Real.cos_pi_div_two, Real.sin_pi_div_two]
    norm_num
  have hs3 : Real.sin (Real.pi + Real.pi / 2) = -1 := by
    rw [Real.sin_add, Real.cos_pi, Real.sin_pi, Real.cos_pi_div_two, Real.sin_pi_div_two]
    norm_num
  rw [Polygon.regular, if_neg (by norm_num),
    show List.range 4 = [0, 1, 2, 3] from rfl]
  simp only [List.map_cons, List.map_nil]
  rw [show (((0 : ℕ) : ℝ)) * (2 * Real.pi / ((4 : ℕ) : ℝ)) = 0 by push_cast; ring,
    show (((1 : ℕ) : ℝ)) * (2 * Real.pi / ((4 : ℕ) : ℝ)) = Real.pi / 2 by push_cast; ring,
    show (((2 : ℕ) : ℝ)) * (2 * Real.pi / ((4 : ℕ) : ℝ)) = Real.pi by push_cast; ring,
    show (((3 : ℕ) : ℝ)) * (2 * Real.pi / ((4 : ℕ) : ℝ)) = Real.pi + Real.pi / 2 by
      push_cast; ring,
    Real.cos_zero, Real.sin_zero, Real.cos_pi_div_two, Real.sin_pi_div_two,
    Real.cos_pi, Real.sin_pi, hc3, hs3]
  norm_num
  rw [Polygon.close, if_pos]
  · rfl
  · refine ⟨by norm_num, ?_⟩
    norm_num [Polygon.isClosed, Point.equals, eps]

/-- C7: `Polygon.area` is 0 below 3 vertices and otherwise the absolute value
of half the shoelace signed sum over the wrapped vertex cycle, hence
invariant under reversing the winding; the regular 4-gon with center (0,0)
and radius 1 (an inscribed square) has area 2. -/
theorem c7_shoelace_area (vs : Poly ℚ) :
    (vs.length < 3 → Polygon.area vs = 0) ∧
      (3 ≤ vs.length → Polygon.area vs = |cycSum shoeTerm vs| / 2) ∧
      Polygon.area vs.reverse = Polygon.area vs ∧
      (Polygon.regular Real.cos Real.sin Real.pi ⟨0, 0⟩ 1 4).map Polygon.area = some 2 := by
  refine ⟨fun h => by rw [Polygon.area, if_pos h],
    fun h => by rw [Polygon.area, if_neg (by omega)], ?_, ?_⟩
  · rw [Polygon.area, Polygon.area, List.length_reverse,
      cycSum_reverse shoeTerm shoeTerm_antisymm, abs_neg]
  · rw [regular_square_vertices, Option.map_some']
    rw [Polygon.area, if_neg (by norm_num)]
    have h4 : cycSum shoeTerm [(⟨1, 0⟩ : Point ℝ), ⟨0, 1⟩, ⟨-1, 0⟩, ⟨0, -1⟩, ⟨1, 0⟩] = 4 := by
      norm_num [cycSum, pairSum, shoeTerm]
    rw [h4, abs_of_pos (by norm_num)]
    norm_num

/-- Witness for C7: both branch hypotheses discharged concretely — a segment
has area 0, the unit square has area equal to half the shoelace sum, and the
same area with reversed winding. -/
theorem c7_witness :
    Polygon.area (α := ℚ) [⟨0, 0⟩, ⟨5, 5⟩] = 0 ∧
      Polygon.area (α := ℚ) [⟨0, 0⟩, ⟨1, 0⟩, ⟨1, 1⟩, ⟨0, 1⟩] =
        |cycSum shoeTerm [⟨0, 0⟩, ⟨1, 0⟩, ⟨1, 1⟩, ⟨0, 1⟩]| / 2 ∧
      Polygon.area (α := ℚ) ([⟨0, 0⟩, ⟨1, 0⟩, ⟨1, 1⟩, ⟨0, 1⟩] : Poly ℚ).reverse =
        Polygon.area (α := ℚ) [⟨0, 0⟩, ⟨1, 0⟩, ⟨1, 1⟩, ⟨0, 1⟩] :=
  ⟨(c7_shoelace_area [⟨0, 0⟩, ⟨5, 5⟩]).1 (by norm_num),
    (c7_shoelace_area _).2.1 (by norm_num),
    (c7_shoelace_area [⟨0, 0⟩, ⟨1, 0⟩, ⟨1, 1⟩, ⟨0, 1⟩]).2.2.1⟩

variable {α : Type} [LinearOrderedField α]

lemma mem_insertLex {v p : Point α} {l : Poly α} (h : v ∈ insertLex p l) :
    v = p ∨ v ∈ l := by
  induction l with
  | nil => simpa [insertLex] using h
  | cons q t ih =>
    rw [insertLex] at h
    by_cases hle : lexLe p q
    · rw [if_pos hle] at h
      simpa using h
    · rw [if_neg hle] at h
      rcases List.mem_cons.mp h with h1 | h2
      · exact Or.inr (by simp [h1])
      · rcases ih h2 with h3 | h4
        · exact Or.inl h3
        · exact Or.inr (List.mem_cons_of_mem q h4)

lemma mem_sortLex {v : Point α} {l : Poly α} (h : v ∈ sortLex l) : v ∈ l := by
  induction l with
  | nil => simp [sortLex] at h
  | cons p t ih =>
    rw [sortLex] at h
    rcases mem_insertLex h with h1 | h2
    · simp [h1]
    · exact List.mem_cons_of_mem p (ih h2)

lemma mem_popWhile {v p : Point α} : ∀ {l : Poly α}, v ∈ popWhile p l → v ∈ l
  | [], h => h
  | [a], h => h
  | a :: b :: t, h => by
    rw [popWhile] at h
    by_cases hc : crossOAB b a p ≤ 0
    · rw [if_pos hc] at h
      exact List.mem_cons_of_mem a (mem_popWhile h)
    · rwa [if_neg hc] at h

lemma mem_buildChain_aux {v : Point α} :
    ∀ (pts : Poly α) (acc : Poly α),
      v ∈ pts.foldl (fun hull p => p :: popWhile p hull) acc → v ∈ acc ∨ v ∈ pts
  | [], acc, h => Or.inl h
  | p :: t, acc, h => by
    rcases mem_buildChain_aux t (p :: popWhile p acc) h with h1 | h2
    · rcases List.mem_cons.mp h1 with h3 | h4
      · exact Or.inr (by simp [h3])
      · exact Or.inl (mem_popWhile h4)
    · exact Or.inr (List.mem_cons_of_mem p h2)

lemma mem_buildChain {v : Point α} {pts : Poly α} (h : v ∈ buildChain pts) : v ∈ pts := by
  rw [buildChain, List.mem_reverse] at h
  rcases mem_buildChain_aux pts [] h with h1 | h2
  · simp at h1
  · exact h2

/-- C3: `Polygon.convexHull` returns the input verbatim below 3 points, and
otherwise the monotone-chain hull: the two chains over the lexicographically
sorted points, concatenated with the duplicated endpoints dropped.  Every
hull vertex is one of the input points.  On the spec's 5-point example it
returns exactly the 4 corners in counter-clockwise order (positive shoelace
sum) and drops the interior point (1/2, 1/2). -/
theorem c3_convex_hull (pts : Poly ℚ) :
    (pts.length < 3 → Polygon.convexHull pts = pts) ∧
      (3 ≤ pts.length →
        Polygon.convexHull pts =
          (buildChain (sortLex pts)).dropLast ++ (buildChain (sortLex pts).reverse).dropLast) ∧
      (∀ v ∈ Polygon.convexHull pts, v ∈ pts) ∧
      Polygon.convexHull (α := ℚ) [⟨0, 0⟩, ⟨1, 1⟩, ⟨0, 1⟩, ⟨1, 0⟩, ⟨1/2, 1/2⟩] =
        [⟨0, 0⟩, ⟨1, 0⟩, ⟨1, 1⟩, ⟨0, 1⟩] ∧
      0 < cycSum shoeTerm (Polygon.convexHull (α := ℚ)
        [⟨0, 0⟩, ⟨1, 1⟩, ⟨0, 1⟩, ⟨1, 0⟩, ⟨1/2, 1/2⟩]) ∧
      (⟨1/2, 1/2⟩ : Point ℚ) ∉ Polygon.convexHull (α := ℚ)
        [⟨0, 0⟩, ⟨1, 1⟩, ⟨0, 1⟩, ⟨1, 0⟩, ⟨1/2, 1/2⟩] := by
  have hhull : Polygon.convexHull (α := ℚ) [⟨0, 0⟩, ⟨1, 1⟩, ⟨0, 1⟩, ⟨1, 0⟩, ⟨1/2, 1/2⟩] =
      [⟨0, 0⟩, ⟨1, 0⟩, ⟨1, 1⟩, ⟨0, 1⟩] := by
    norm_num [Polygon.convexHull, sortLex, insertLex, lexLe, buildChain, popWhile, crossOAB]
  refine ⟨fun h => by rw [Polygon.convexHull, if_pos h],
    fun h => by rw [Polygon.convexHull, if_neg (by omega)], ?_, hhull, ?_, ?_⟩
  · intro v hv
    rw [Polygon.convexHull] at hv
    by_cases h3 : pts.length < 3
    · rwa [if_pos h3] at hv
    · rw [if_neg h3] at hv
      rcases List.mem_append.mp hv with h1 | h2
      · exact mem_sortLex (mem_buildChain (List.dropLast_subset _ h1))
      · exact mem_sortLex (List.mem_reverse.mp
          (mem_buildChain (List.dropLast_subset _ h2)))
  · rw [hhull]
    norm_num [cycSum, pairSum, shoeTerm]
  · rw [hhull]
    norm_num

/-- Witness for C3: the two length branches applied concretely — a 2-point
input is returned verbatim, and the 5-point example matches the two-chain
concatenation form. -/
theorem c3_witness :
    Polygon.convexHull (α := ℚ) [⟨3, 3⟩, ⟨0, 1⟩] = [⟨3, 3⟩, ⟨0, 1⟩] ∧
      Polygon.convexHull (α := ℚ) [⟨0, 0⟩, ⟨1, 1⟩, ⟨0, 1⟩, ⟨1, 0⟩, ⟨1/2, 1/2⟩] =
        (buildChain (sortLex [⟨0, 0⟩, ⟨1, 1⟩, ⟨0, 1⟩, ⟨1, 0⟩, ⟨1/2, 1/2⟩])).dropLast ++
          (buildChain (sortLex [⟨0, 0⟩, ⟨1, 1⟩, ⟨0, 1⟩, ⟨1, 0⟩,
            ⟨1/2, 1/2⟩]).reverse).dropLast :=
  ⟨(c3_convex_hull [⟨3, 3⟩, ⟨0, 1⟩]).1 (by norm_num),
    (c3_convex_hull _).2.1 (by norm_num)⟩

/-- C4 (amended): for non-empty polygons, `Polygon.intersects` is true exactly
when some edge pair intersects or either polygon contains the *first* vertex
of the other (the code tests only `vertices[0]`, not every vertex). -/
theorem c4_polygon_intersects_first_vertex (P Q : Poly ℚ) (hP : P ≠ []) (hQ : Q ≠ []) :
    Polygon.intersects P Q = true ↔
      ((∃ e1 ∈ Polygon.getEdges P, ∃ e2 ∈ Polygon.getEdges Q,
          (Line.intersects e1 e2).isSome = true) ∨
        Polygon.containsPt Q (P.head hP) = true ∨
        Polygon.containsPt P (Q.head hQ) = true) := by
  obtain ⟨p, ps, rfl⟩ := List.exists_cons_of_ne_nil hP
  obtain ⟨q, qs, rfl⟩ := List.exists_cons_of_ne_nil hQ
  rw [Polygon.intersects, if_neg (by simp)]
  simp [List.any_eq_true]
  exact or_assoc

/-- C4 counterexample: on the square `P = [(0,0),(4,0),(4,4),(0,4)]` and the
nearly horizontal segment polygon `Q = [(-2,-1e-11),(3,1e-11)]`, the vertex
`(3, 1e-11)` of Q lies inside P (the claim's existential is true), yet the
code returns false: every crossing edge pair is near-parallel
(determinant magnitude 8e-11 < 1e-10) and the two first vertices lie outside
the other polygon. -/
theorem c4_counterexample :
    ¬(Polygon.intersects (α := ℚ) [⟨0, 0⟩, ⟨4, 0⟩, ⟨4, 4⟩, ⟨0, 4⟩]
        [⟨-2, -(1/10^11)⟩, ⟨3, 1/10^11⟩] = true ↔
      ((∃ e1 ∈ Polygon.getEdges (α := ℚ) [⟨0, 0⟩, ⟨4, 0⟩, ⟨4, 4⟩, ⟨0, 4⟩],
          ∃ e2 ∈ Polygon.getEdges (α := ℚ) [⟨-2, -(1/10^11)⟩, ⟨3, 1/10^11⟩],
          (Line.intersects e1 e2).isSome = true) ∨
        (∃ v ∈ ([⟨-2, -(1/10^11)⟩, ⟨3, 1/10^11⟩] : Poly ℚ),
          Polygon.containsPt [⟨0, 0⟩, ⟨4, 0⟩, ⟨4, 4⟩, ⟨0, 4⟩] v = true) ∨
        (∃ v ∈ ([⟨0, 0⟩, ⟨4, 0⟩, ⟨4, 4⟩, ⟨0, 4⟩] : Poly ℚ),
          Polygon.containsPt [⟨-2, -(1/10^11)⟩, ⟨3, 1/10^11⟩] v = true))) := by
  have hfalse : Polygon.intersects (α := ℚ) [⟨0, 0⟩, ⟨4, 0⟩, ⟨4, 4⟩, ⟨0, 4⟩]
      [⟨-2, -(1/10^11)⟩, ⟨3, 1/10^11⟩] = false := by
    norm_num [Polygon.intersects, Polygon.getEdges, Polygon.isClosed, Point.equals, eps,
      Polygon.containsPt, Line.intersects, Line.denomOf, Line.paramS, Line.paramT,
      List.range_succ, abs_of_pos, abs_of_neg, abs_of_nonneg]
  have hmem : Polygon.containsPt (α := ℚ) [⟨0, 0⟩, ⟨4, 0⟩, ⟨4, 4⟩, ⟨0, 4⟩]
      ⟨3, 1/10^11⟩ = true := by
    norm_num [Polygon.containsPt, List.range_succ]
  intro hiff
  have hcode := hiff.mpr (Or.inr (Or.inl ⟨⟨3, 1/10^11⟩, by simp, hmem⟩))
  rw [hfalse] at hcode
  exact Bool.false_ne_true hcode

/-- Witness for C4 (amended): two concretely overlapping triangles; the first
vertex (1,1) of the second lies inside the first, and the code agrees. -/
theorem c4_witness :
    Polygon.intersects (α := ℚ) [⟨0, 0⟩, ⟨2, 0⟩, ⟨1, 2⟩] [⟨1, 1⟩, ⟨5, 1⟩, ⟨3, 3⟩] = true :=
  (c4_polygon_intersects_first_vertex [⟨0, 0⟩, ⟨2, 0⟩, ⟨1, 2⟩] [⟨1, 1⟩, ⟨5, 1⟩, ⟨3, 3⟩]
      (by simp) (by simp)).mpr
    (Or.inr (Or.inr (by norm_num [Polygon.containsPt, List.range_succ])))

/-- Heap model for the aliasing claim: a JS `Point` object reference is an
address (a `ℕ`, the allocation index) into a store of point values. -/
abbrev Store := List (Point ℚ)

/-- Dereference an address (out-of-range reads return a dummy value). -/
def readP (σ : Store) (a : ℕ) : Point ℚ := σ.getD a ⟨0, 0⟩

/-- Mutate the point object at an address (e.g. `p.x = …; p.y = …`). -/
def writeP (σ : Store) (a : ℕ) (v : Point ℚ) : Store := σ.set a v

/-- The `Polygon` constructor body `vertices.map((v) => v.clone())` (source
lines 1341-1343): each incoming point is cloned into a fresh cell, in order;
returns the new store and the polygon's vertex addresses. -/
def Polygon.mkHeap (σ : Store) : List ℕ → Store × List ℕ
  | [] => (σ, [])
  | a :: as =>
    let σ1 := σ ++ [readP σ a]
    let r := Polygon.mkHeap σ1 as
    (r.1, σ.length :: r.2)

/-- `Polygon.addVertex(point)`: `this.vertices.push(point.clone())`. -/
def Polygon.addVertexHeap (σ : Store) (vs : List ℕ) (a : ℕ) : Store × List ℕ :=
  (σ ++ [readP σ a], vs ++ [σ.length])

/-- `Polygon.insertVertex(index, point)` (source lines 1365-1368):
`this.vertices.splice(index, 0, point.clone())`.  The index is modelled as a
natural number; `take`/`drop` clamp an index beyond the end to an append,
exactly as JS `splice` does for a non-negative index. -/
def Polygon.insertVertexHeap (σ : Store) (vs : List ℕ) (i : ℕ) (a : ℕ) :
    Store × List ℕ :=
  (σ ++ [readP σ a], vs.take i ++ σ.length :: vs.drop i)

/-- `Polygon.setVertex(index, point)` (source lines 1811-1816): inside the
range guard, `this.vertices[index] = point.clone()`; outside it, nothing is
allocated and nothing changes. -/
def Polygon.setVertexHeap (σ : Store) (vs : List ℕ) (i : ℤ) (a : ℕ) :
    Store × List ℕ :=
  if 0 ≤ i ∧ i < (vs.length : ℤ) then (σ ++ [readP σ a], vs.set i.toNat σ.length)
  else (σ, vs)

/-- `Polygon.getVertex(index)` (source lines 1799-1802): `null` out of range,
otherwise `this.vertices[index].clone()` — a freshly allocated copy of the
stored vertex, never the stored reference itself. -/
def Polygon.getVertexHeap (σ : Store) (vs : List ℕ) (i : ℤ) : Store × Option ℕ :=
  if i < 0 ∨ (vs.length : ℤ) ≤ i then (σ, none)
  else (σ ++ [readP σ (vs.getD i.toNat 0)], some σ.length)

/-- The `Circle` constructor (source lines 875-878): `this.center = center`
stores the incoming point reference itself — no clone. -/
def Circle.mkHeap (center : ℕ) (radius : ℚ) : ℕ × ℚ := (center, radius)

/-- The `Line` constructor (source lines 1083-1086): `this.start = start;
this.end = end` — both incoming references stored as-is, no clone. -/
def Line.mkHeap (start endp : ℕ) : ℕ × ℕ := (start, endp)

/-- `Rectangle.topLeft()` (source lines 627-629): `new Point(this.x, this.y)`
allocates a fresh Point; the rectangle itself holds only the four scalar
fields of the `Rectangle` structure, never a Point reference. -/
def Rectangle.topLeftHeap (σ : Store) (r : Rectangle ℚ) : Store × ℕ :=
  (σ ++ [⟨r.x, r.y⟩], σ.length)

/-- `Rectangle.center()` (source lines 619-621):
`new Point(this.centerX, this.centerY)` with `centerX = x + width / 2` and
`centerY = y + height / 2` — likewise a fresh Point. -/
def Rectangle.centerHeap (σ : Store) (r : Rectangle ℚ) : Store × ℕ :=
  (σ ++ [⟨r.x + r.width / 2, r.y + r.height / 2⟩], σ.length)

lemma readP_append (σ Δ : Store) (j : ℕ) (h : j < σ.length) :
    readP (σ ++ Δ) j = readP σ j := List.getD_append σ Δ _ j h

lemma readP_snoc_self (σ : Store) (v : Point ℚ) : readP (σ ++ [v]) σ.length = v := by
  rw [readP, List.getD_append_right σ [v] _ _ le_rfl]
  simp

lemma readP_write_ne (σ : Store) (a b : ℕ) (v : Point ℚ) (h : a ≠ b) :
    readP (writeP σ a v) b = readP σ b := by
  simp [readP, writeP, List.getD_eq_getElem?_getD, List.getElem?_set_ne h]

lemma readP_write_self (σ : Store) (a : ℕ) (v : Point ℚ) (h : a < σ.length) :
    readP (writeP σ a v) a = v := by
  simp [readP, writeP, List.getD_eq_getElem?_getD, List.getElem?_set_self h]

lemma readP_write_fresh (σ : Store) (v w : Point ℚ) (a : ℕ) (ha : a < σ.length) :
    readP (writeP (σ ++ [v]) σ.length w) a = readP σ a := by
  rw [readP_write_ne _ _ _ _ (by omega), readP_append _ _ _ ha]

lemma mkHeap_spec : ∀ (vs : List ℕ) (σ : Store), (∀ a ∈ vs, a < σ.length) →
    (Polygon.mkHeap σ vs).1.length = σ.length + vs.length ∧
      (Polygon.mkHeap σ vs).2 = List.range' σ.length vs.length ∧
      (∀ j, j < σ.length → readP (Polygon.mkHeap σ vs).1 j = readP σ j) ∧
      (∀ i, (hi : i < vs.length) →
        readP (Polygon.mkHeap σ vs).1 (σ.length + i) = readP σ (vs.get ⟨i, hi⟩))
  | [], σ, _ => by simp [Polygon.mkHeap, List.range']
  | a :: as, σ, h => by
    have ha : a < σ.length := h a (List.mem_cons_self a as)
    have hlen : (σ ++ [readP σ a]).length = σ.length + 1 := by simp
    have has : ∀ b ∈ as, b < (σ ++ [readP σ a]).length := fun b hb => by
      have hb2 := h b (List.mem_cons_of_mem a hb)
      rw [hlen]
      omega
    obtain ⟨ih1, ih2, ih3, ih4⟩ := mkHeap_spec as (σ ++ [readP σ a]) has
    simp only [Polygon.mkHeap]
    refine ⟨?_, ?_, ?_, ?_⟩
    · rw [ih1, hlen]
      simp only [List.length_cons]
      omega
    · rw [ih2, hlen, List.length_cons]
      rfl
    · intro j hj
      rw [ih3 j (by omega), readP_append σ _ j hj]
    · intro i hi
      cases i with
      | zero =>
        rw [Nat.add_zero, ih3 σ.length (by omega), readP_snoc_self]
        rfl
      | succ n =>
        have hn : n < as.length := by simpa using hi
        rw [show σ.length + (n + 1) = (σ ++ [readP σ a]).length + n by omega, ih4 n hn]
        have hmem : as.get ⟨n, hn⟩ < σ.length :=
          h _ (List.mem_cons_of_mem a (List.get_mem as n hn))
        rw [readP_append σ _ _ hmem]
        rfl

/-- C9 (amended): the `Polygon` constructor clones every incoming point into
a fresh cell above all pre-existing addresses, so later writes to any
caller-held point leave the stored vertices unchanged and vice versa; every
vertex-level mutator (`addVertex`, `insertVertex`, `setVertex`) likewise
stores a clone in the fresh cell, which is independent of the caller's point
in both directions; `getVertex` returns a fresh clone whose mutation touches
no stored vertex; `Rectangle` holds only the four scalar fields and its
corner/center accessors allocate fresh Point objects.  `Circle` and `Line`,
by contrast, store the incoming references unchanged, so a caller write is
visible through their stored fields. -/
theorem c9_polygon_ownership (σ : Store) (vs : List ℕ) (h : ∀ a ∈ vs, a < σ.length)
    (b : ℕ) (hb : b < σ.length) (w : Point ℚ) (r : ℚ) (j : ℕ) (k : ℤ) (e : ℕ)
    (R : Rectangle ℚ) :
    (∀ o ∈ (Polygon.mkHeap σ vs).2, σ.length ≤ o) ∧
      (∀ i, (hi : i < vs.length) →
        readP (Polygon.mkHeap σ vs).1 (σ.length + i) = readP σ (vs.get ⟨i, hi⟩)) ∧
      (∀ i, i < vs.length →
        readP (writeP (Polygon.mkHeap σ vs).1 b w) (σ.length + i) =
          readP (Polygon.mkHeap σ vs).1 (σ.length + i)) ∧
      (∀ i, i < vs.length →
        readP (writeP (Polygon.mkHeap σ vs).1 (σ.length + i) w) b =
          readP (Polygon.mkHeap σ vs).1 b) ∧
      (Polygon.addVertexHeap σ vs b).1 = σ ++ [readP σ b] ∧
      (Polygon.addVertexHeap σ vs b).2 = vs ++ [σ.length] ∧
      (Polygon.insertVertexHeap σ vs j b).1 = σ ++ [readP σ b] ∧
      (Polygon.insertVertexHeap σ vs j b).2 = vs.take j ++ σ.length :: vs.drop j ∧
      (0 ≤ k ∧ k < (vs.length : ℤ) →
        (Polygon.setVertexHeap σ vs k b).1 = σ ++ [readP σ b] ∧
          (Polygon.setVertexHeap σ vs k b).2 = vs.set k.toNat σ.length) ∧
      readP (writeP (σ ++ [readP σ b]) b w) σ.length = readP σ b ∧
      readP (writeP (σ ++ [readP σ b]) σ.length w) b = readP σ b ∧
      (0 ≤ k ∧ k < (vs.length : ℤ) →
        (Polygon.getVertexHeap σ vs k).2 = some σ.length ∧
          readP (Polygon.getVertexHeap σ vs k).1 σ.length =
            readP σ (vs.getD k.toNat 0) ∧
          ∀ a ∈ vs, readP (writeP (Polygon.getVertexHeap σ vs k).1 σ.length w) a =
            readP σ a) ∧
      (Circle.mkHeap b r).1 = b ∧
      readP (writeP σ b w) (Circle.mkHeap b r).1 = w ∧
      (Line.mkHeap b e).1 = b ∧
      (Line.mkHeap b e).2 = e ∧
      readP (writeP σ b w) (Line.mkHeap b e).1 = w ∧
      (Rectangle.topLeftHeap σ R).2 = σ.length ∧
      readP (Rectangle.topLeftHeap σ R).1 (Rectangle.topLeftHeap σ R).2 =
        ⟨R.x, R.y⟩ ∧
      (∀ a, a < σ.length →
        readP (writeP (Rectangle.topLeftHeap σ R).1 σ.length w) a = readP σ a) ∧
      (Rectangle.centerHeap σ R).2 = σ.length ∧
      readP (Rectangle.centerHeap σ R).1 (Rectangle.centerHeap σ R).2 =
        ⟨R.x + R.width / 2, R.y + R.height / 2⟩ := by
  obtain ⟨h1, h2, h3, h4⟩ := mkHeap_spec vs σ h
  refine ⟨?_, h4, ?_, ?_, rfl, rfl, rfl, rfl, ?_, ?_, ?_, ?_, rfl, ?_, rfl, rfl, ?_,
    rfl, ?_, ?_, rfl, ?_⟩
  · intro o ho
    rw [h2] at ho
    exact (List.mem_range'_1.mp ho).1
  · intro i _
    apply readP_write_ne
    omega
  · intro i _
    apply readP_write_ne
    omega
  · intro hk
    rw [Polygon.setVertexHeap, if_pos hk]
    exact ⟨rfl, rfl⟩
  · have hne : b ≠ σ.length := by omega
    rw [readP_write_ne _ b σ.length w hne, readP_snoc_self]
  · exact readP_write_fresh σ _ w b hb
  · intro hk
    have hin : ¬(k < 0 ∨ (vs.length : ℤ) ≤ k) := by omega
    rw [Polygon.getVertexHeap, if_neg hin]
    exact ⟨rfl, readP_snoc_self σ _, fun a ha => readP_write_fresh σ _ w a (h a ha)⟩
  · exact readP_write_self σ b w hb
  · exact readP_write_self σ b w hb
  · exact readP_snoc_self σ _
  · intro a ha
    exact readP_write_fresh σ _ w a ha
  · exact readP_snoc_self σ _

/-- C9 counterexample: the `Circle` constructor aliases — with a one-point
store, the circle built on address 0 sees the caller's later mutation of
that point: its stored center reads (3,4) after the write, not the original
(1,2), so "mutating a caller-held point never changes the entity's stored
point" is false for Circle. -/
theorem c9_counterexample :
    (Circle.mkHeap 0 5).1 = 0 ∧
      readP (writeP [⟨1, 2⟩] 0 ⟨3, 4⟩) (Circle.mkHeap 0 5).1 = ⟨3, 4⟩ ∧
      readP [⟨1, 2⟩] (Circle.mkHeap 0 5).1 = ⟨1, 2⟩ ∧
      readP (writeP [⟨1, 2⟩] 0 ⟨3, 4⟩) (Circle.mkHeap 0 5).1 ≠
        readP [⟨1, 2⟩] (Circle.mkHeap 0 5).1 := by
  refine ⟨rfl, rfl, rfl, ?_⟩
  intro hcontra
  have : (3 : ℚ) = 1 := congrArg Point.x hcontra
  norm_num at this

/-- Witness for C9 at the one-point store: the polygon's cloned vertex cell 1
is untouched by a write to the caller's cell 0, still holds the value of the
input point, and `getVertex 0` hands out the fresh cell — with every
hypothesis of the ownership theorem discharged concretely. -/
theorem c9_witness :
    readP (writeP (Polygon.mkHeap [⟨1, 2⟩] [0]).1 0 ⟨9, 9⟩) 1 =
        readP (Polygon.mkHeap [⟨1, 2⟩] [0]).1 1 ∧
      readP (Polygon.mkHeap [⟨1, 2⟩] [0]).1 1 = readP [⟨1, 2⟩] 0 ∧
      (Polygon.getVertexHeap [⟨1, 2⟩] [0] 0).2 = some 1 := by
  have h := c9_polygon_ownership [⟨1, 2⟩] [0] (by simp) 0 (by simp) ⟨9, 9⟩ 5 0 0 0
    ⟨0, 0, 2, 2⟩
  obtain ⟨-, hval, hwr, -, -, -, -, -, hset, -, -, hget, -⟩ := h
  exact ⟨hwr 0 (by norm_num), hval 0 (by norm_num), (hget ⟨by norm_num, by norm_num⟩).1⟩

end CanvasGeo
